import Mathlib

/-!
# Verification of the cosmetic-shop cart/checkout core (`src/app.py`)

Shallow embedding of the cart, pricing and checkout logic of `app.py`.
Python `Decimal` money values are embedded as `ℚ` (exact arithmetic);
the session cart `dict {product_id: qty}` is embedded as an association
list in insertion order, with Python-dict update semantics (updating an
existing key keeps its position, a new key is appended at the end).
-/

set_option autoImplicit false

namespace Shop

/-- A row of the `products` table (class `Product` in `app.py`).
`price` is a `Numeric(10,2)` decimal, embedded as `ℚ`. -/
structure Product where
  id : String
  name : String
  price : ℚ
  category : String
  img : String
  dsc : String
deriving DecidableEq, Repr

/-- The catalog: the read-only set of product rows, in some listing order.
`Product.query.get pid` becomes a scan for the (unique) row with that id. -/
abbrev Catalog := List Product

/-- Model of `_find_product(pid)` (`Product.query.get(pid)`): the first product whose
primary key equals `pid`, if any. -/
def findProduct (catalog : Catalog) (pid : String) : Option Product :=
  catalog.find? (fun p => p.id == pid)

/-- The session cart `{product_id: qty}` as an insertion-ordered
association list. -/
abbrev Cart := List (String × Int)

/-- Model of `cart.get(pid, 0)`: quantity stored for `pid`, defaulting to `0`. -/
def cartGet (cart : Cart) (pid : String) : Int :=
  ((cart.find? (fun e => e.1 == pid)).map Prod.snd).getD 0

/-- Model of `cart[pid] = q` with Python-dict semantics: an existing key keeps its
position and gets the new value; a fresh key is appended at the end. -/
def cartSet (cart : Cart) (pid : String) (q : Int) : Cart :=
  match cart with
  | [] => [(pid, q)]
  | (k, v) :: rest => if k = pid then (k, q) :: rest else (k, v) :: cartSet rest pid q

/-- Model of `del cart[pid]` guarded by `if pid in cart` (route `remove_item`):
removes the entry for `pid` when present, no-op otherwise. -/
def removeItem (cart : Cart) (pid : String) : Cart :=
  cart.eraseP (fun e => e.1 == pid)

/-- The Cart invariant stated by the spec: no stored entry has
quantity ≤ 0. -/
def cartInv (cart : Cart) : Prop :=
  ∀ e ∈ cart, 0 < e.2

instance (cart : Cart) : Decidable (cartInv cart) :=
  inferInstanceAs (Decidable (∀ e ∈ cart, 0 < e.2))

/-- One rendered line of the cart detail (the dict built in
`_cart_detail`). -/
structure LineItem where
  id : String
  name : String
  img : String
  price : ℚ
  qty : Int
  subtotal : ℚ
deriving DecidableEq, Repr

/-- Model of `_cart_detail()`: walk the cart in iteration order; entries whose id
is not in the catalog are skipped; otherwise `subtotal = price * qty` is
appended to the items and accumulated into the total. -/
def cartDetail (catalog : Catalog) : Cart → List LineItem × ℚ
  | [] => ([], 0)
  | (pid, qty) :: rest =>
    match findProduct catalog pid with
    | none => cartDetail catalog rest
    | some p =>
      let subtotal : ℚ := p.price * (qty : ℚ)
      let (items, total) := cartDetail catalog rest
      (⟨p.id, p.name, p.img, p.price, qty, subtotal⟩ :: items, subtotal + total)

/-- The demo catalog `SEED_ITEMS` of `app.py`. -/
def seedCatalog : Catalog :=
  [ ⟨"mask-cica", "CICA舒緩面膜", 129, "面膜",
      "https://via.placeholder.com/600x400?text=CICA+Mask", "敏感肌友善，換季舒緩保濕。"⟩,
    ⟨"mask-heartleaf", "魚腥草保濕面膜", 99, "面膜",
      "https://via.placeholder.com/600x400?text=Heartleaf+Mask", "清爽補水、不黏膩。"⟩,
    ⟨"hand-cream-coconut", "椰香護手霜 30g", 89, "護手霜",
      "https://via.placeholder.com/600x400?text=Coconut+Hand+Cream", "輕盈不油，淡淡果香。"⟩,
    ⟨"hand-cream-ceramide", "神經醯胺修護護手霜 45g", 159, "護手霜",
      "https://via.placeholder.com/600x400?text=Ceramide+Hand+Cream", "乾裂手救星，深度修護。"⟩ ]

/-- The error of route `add_to_cart` when `_find_product` returns nothing
(flash "找不到此商品" and redirect). -/
inductive AddError where
  | notFound
deriving DecidableEq, Repr

/-- Route `add_to_cart(pid, qty)`: fails with `NotFound` when the product
id does not resolve; otherwise `cart[pid] = cart.get(pid, 0) + qty`. -/
def addToCart (catalog : Catalog) (cart : Cart) (pid : String) (qty : Int) :
    Except AddError Cart :=
  match findProduct catalog pid with
  | none => .error .notFound
  | some _ => .ok (cartSet cart pid (cartGet cart pid + qty))

/-- A sequence of `add_to_cart` requests for the same product id, stopping
at the first failure. -/
def addSeq (catalog : Catalog) (pid : String) : List Int → Cart → Except AddError Cart
  | [], cart => .ok cart
  | qty :: qtys, cart =>
    match addToCart catalog cart pid qty with
    | .error e => .error e
    | .ok cart' => addSeq catalog pid qtys cart'

/-- Python `str.strip()`: the string with leading and trailing
whitespace removed. -/
def pyStrip (s : String) : String :=
  String.mk (((s.data.dropWhile Char.isWhitespace).reverse.dropWhile
    Char.isWhitespace).reverse)

/-- Model of Python `int(s)` on a decimal string literal: optional
whitespace around an optional sign followed by a nonempty digit run;
`none` when `int` would raise `ValueError`. -/
def pyInt (s : String) : Option Int :=
  let digitsVal : List Char → Option Nat := fun cs =>
    if cs ≠ [] ∧ cs.all Char.isDigit then
      some (cs.foldl (fun n c => 10 * n + (c.toNat - '0'.toNat)) 0)
    else none
  match (pyStrip s).data with
  | '-' :: cs => (digitsVal cs).map (fun n => -(n : Int))
  | '+' :: cs => (digitsVal cs).map (fun n => (n : Int))
  | cs => (digitsVal cs).map (fun n => (n : Int))

/-- Model of `int(value or 0)` in route `update_cart`: an empty form value is the
falsy `""`, so `value or 0` is the integer `0`; otherwise the string is
parsed by `int`. -/
def formQty (value : String) : Option Int :=
  if value = "" then some 0 else pyInt value

/-- Model of `key.startswith("qty_")` combined with
`key.replace("qty_", "", 1)`: since the key is checked to start with
`"qty_"`, the first occurrence replaced is that prefix, so the product id
is the key with its first four characters dropped. -/
def stripQtyKey (key : String) : Option String :=
  if key.data.take 4 = ['q', 't', 'y', '_'] then some (String.mk (key.data.drop 4))
  else none

/-- The form key `"qty_" ++ pid` used by the cart-update form. -/
def mkQtyKey (pid : String) : String :=
  String.mk ('q' :: 't' :: 'y' :: '_' :: pid.data)

/-- The loop body of route `update_cart`, starting from `cart = {}` and
processing form pairs in order: keys not of the form `qty_<pid>` are
ignored, `qty = max(0, int(value or 0))`, and only `qty > 0` is stored.
`none` when `int` raises. -/
def buildCart : List (String × String) → Cart → Option Cart
  | [], acc => some acc
  | (key, value) :: rest, acc =>
    match stripQtyKey key with
    | none => buildCart rest acc
    | some pid =>
      match formQty value with
      | none => none
      | some n =>
        if 0 < max 0 n then buildCart rest (cartSet acc pid (max 0 n))
        else buildCart rest acc

/-- Route `update_cart`: rebuilds the cart from scratch out of the posted
`qty_<pid>` fields and saves it, replacing whatever cart was in the
session before. -/
def updateCart (form : List (String × String)) : Option Cart :=
  buildCart form []

/-- The single-read pending order `session["last_order"]`. -/
structure PendingOrder where
  order_id : String
  email : String
deriving DecidableEq, Repr

/-- The session state the core touches: the cart and the single-read
`last_order` slot. -/
structure Session where
  cart : Cart
  lastOrder : Option PendingOrder
deriving DecidableEq, Repr

/-- Model of `uuid.uuid4().hex[:10].upper()`: the first ten characters of the
random 32-character lowercase-hex uuid string, uppercased. The random
hex string itself is a parameter of the embedding. -/
def mintOrderId (rawHex : String) : String :=
  String.mk ((rawHex.data.take 10).map Char.toUpper)

/-- The outcome of a POST to route `checkout`. -/
inductive CheckoutResult where
  | validationError
  | emptyCartError
  | success (order_id : String)
deriving DecidableEq, Repr

/-- POST branch of route `checkout`: the four form fields are trimmed;
if any is empty the submission fails with a validation flash (session
untouched); otherwise, if the priced item list is empty, it fails with an
empty-cart flash (session untouched); otherwise an order id is minted
from the uuid hex, the cart is popped from the session and
`{order_id, email}` is stored in `last_order`. -/
def checkoutSubmit (catalog : Catalog) (s : Session)
    (name email address payment : String) (rawHex : String) :
    CheckoutResult × Session :=
  let items := (cartDetail catalog s.cart).1
  let name := pyStrip name
  let email := pyStrip email
  let address := pyStrip address
  let payment := pyStrip payment
  if name = "" ∨ email = "" ∨ address = "" ∨ payment = "" then
    (.validationError, s)
  else if items = [] then
    (.emptyCartError, s)
  else
    let oid := mintOrderId rawHex
    (.success oid, { cart := [], lastOrder := some ⟨oid, email⟩ })

/-- What route `order_success` renders. -/
inductive OrderSuccessView where
  | confirmation (order_id : String) (email : String)
  | redirectToCatalog
deriving DecidableEq, Repr

/-- Route `order_success`: pops `last_order` from the session; renders
the confirmation when something was staged, otherwise redirects to the
product listing. -/
def readPendingOrder (s : Session) : OrderSuccessView × Session :=
  match s.lastOrder with
  | none => (.redirectToCatalog, { s with lastOrder := none })
  | some po => (.confirmation po.order_id po.email, { s with lastOrder := none })

/-- The ten decimal digit characters. -/
def decimalChars : List Char :=
  ['0', '1', '2', '3', '4', '5', '6', '7', '8', '9']

/-- The alphabet of `uuid4().hex`: lowercase hexadecimal digits. -/
def lowerHexChars : List Char :=
  decimalChars ++ ['a', 'b', 'c', 'd', 'e', 'f']

/-- The alphabet of the minted order id: uppercase hexadecimal digits. -/
def upperHexChars : List Char :=
  decimalChars ++ ['A', 'B', 'C', 'D', 'E', 'F']

theorem cartDetail_total_eq_sum (catalog : Catalog) (cart : Cart) :
    (cartDetail catalog cart).2 =
      ((cartDetail catalog cart).1.map LineItem.subtotal).sum := by
  induction cart with
  | nil => simp [cartDetail]
  | cons e rest ih =>
    obtain ⟨pid, qty⟩ := e
    cases h : findProduct catalog pid with
    | none => simpa [cartDetail, h] using ih
    | some p => simp [cartDetail, h, ih]

/-- C1: the total returned by `_cart_detail` is exactly the sum of the
returned items' subtotals, each subtotal being `unit_price * quantity`
in exact decimal arithmetic. -/
theorem claim_C1_total_is_sum_of_subtotals (catalog : Catalog) (cart : Cart) :
    (cartDetail catalog cart).2 =
      ((cartDetail catalog cart).1.map LineItem.subtotal).sum
    ∧ ∀ item ∈ (cartDetail catalog cart).1, item.subtotal = item.price * (item.qty : ℚ) := by
  refine ⟨cartDetail_total_eq_sum catalog cart, ?_⟩
  induction cart with
  | nil => simp [cartDetail]
  | cons e rest ih =>
    obtain ⟨pid, qty⟩ := e
    cases h : findProduct catalog pid with
    | none => simpa [cartDetail, h] using ih
    | some p =>
      intro item hitem
      simp only [cartDetail, h, List.mem_cons] at hitem
      rcases hitem with rfl | hitem
      · rfl
      · exact ih item hitem

theorem toUpper_mem_upperHex {c : Char} (h : c ∈ lowerHexChars) :
    c.toUpper ∈ upperHexChars := by
  simp only [lowerHexChars, upperHexChars, decimalChars, List.mem_append,
    List.mem_cons, List.not_mem_nil, or_false] at h ⊢
  rcases h with ((rfl | rfl | rfl | rfl | rfl | rfl | rfl | rfl | rfl | rfl) |
    (rfl | rfl | rfl | rfl | rfl | rfl)) <;> decide

theorem mintOrderId_data (rawHex : String) :
    (mintOrderId rawHex).data = (rawHex.data.take 10).map Char.toUpper := rfl

/-- C2: a checkout submission whose four trimmed fields are non-empty and
whose priced item list is non-empty mints `uuid4().hex[:10].upper()` — a
10-character token over the uppercase-hex alphabet — empties the cart,
stages `{order_id, email}` in the pending slot and signals success with
that order id. -/
theorem claim_C2_checkout_success (catalog : Catalog) (s : Session)
    (name email address payment rawHex : String)
    (hn : pyStrip name ≠ "") (he : pyStrip email ≠ "")
    (ha : pyStrip address ≠ "") (hp : pyStrip payment ≠ "")
    (hitems : (cartDetail catalog s.cart).1 ≠ [])
    (hlen : 10 ≤ rawHex.data.length)
    (hhex : ∀ c ∈ rawHex.data, c ∈ lowerHexChars) :
    checkoutSubmit catalog s name email address payment rawHex =
      (.success (mintOrderId rawHex),
        { cart := [], lastOrder := some ⟨mintOrderId rawHex, pyStrip email⟩ })
    ∧ (mintOrderId rawHex).data.length = 10
    ∧ ∀ c ∈ (mintOrderId rawHex).data, c ∈ upperHexChars := by
  refine ⟨?_, ?_, ?_⟩
  · simp [checkoutSubmit, hn, he, ha, hp, hitems]
  · simp only [mintOrderId_data, List.length_map, List.length_take]
    omega
  · intro c hc
    rw [mintOrderId_data] at hc
    simp only [List.mem_map] at hc
    obtain ⟨a, ha', rfl⟩ := hc
    exact toUpper_mem_upperHex (hhex a (List.mem_of_mem_take ha'))

theorem claim_C2_checkout_success_witness :
    checkoutSubmit seedCatalog ⟨[("mask-cica", 2)], none⟩
        " Amy " "amy@example.com" "1 Road" "card" "0c9a1b2d3e4f5a6b7c8d9e0f1a2b3c4d" =
      (.success (mintOrderId "0c9a1b2d3e4f5a6b7c8d9e0f1a2b3c4d"),
        { cart := [],
          lastOrder := some ⟨mintOrderId "0c9a1b2d3e4f5a6b7c8d9e0f1a2b3c4d",
            "amy@example.com"⟩ })
    ∧ (mintOrderId "0c9a1b2d3e4f5a6b7c8d9e0f1a2b3c4d").data.length = 10
    ∧ ∀ c ∈ (mintOrderId "0c9a1b2d3e4f5a6b7c8d9e0f1a2b3c4d").data,
        c ∈ upperHexChars :=
  claim_C2_checkout_success seedCatalog ⟨[("mask-cica", 2)], none⟩
    " Amy " "amy@example.com" "1 Road" "card" "0c9a1b2d3e4f5a6b7c8d9e0f1a2b3c4d"
    (by decide) (by decide) (by decide) (by decide) (by decide) (by decide)
    (by decide)

/-- C3: a checkout submission in which any of the four fields is blank
after trimming signals a validation error and leaves the session — cart
included — unchanged, regardless of the cart's contents (so field
validation takes precedence over the empty-cart check). -/
theorem claim_C3_checkout_validation (catalog : Catalog) (s : Session)
    (name email address payment rawHex : String)
    (h : pyStrip name = "" ∨ pyStrip email = "" ∨ pyStrip address = ""
      ∨ pyStrip payment = "") :
    checkoutSubmit catalog s name email address payment rawHex =
      (.validationError, s) := by
  rcases h with h | h | h | h <;> simp [checkoutSubmit, h]

theorem claim_C3_checkout_validation_witness :
    checkoutSubmit seedCatalog ⟨[], none⟩ "  " "amy@example.com" "1 Road" "card"
        "0c9a1b2d3e4f5a6b7c8d9e0f1a2b3c4d" =
      (.validationError, ⟨[], none⟩) :=
  claim_C3_checkout_validation seedCatalog ⟨[], none⟩ "  " "amy@example.com"
    "1 Road" "card" "0c9a1b2d3e4f5a6b7c8d9e0f1a2b3c4d" (Or.inl (by decide))

/-- C4: a checkout submission whose four trimmed fields are all non-empty
but whose priced item list is empty signals an empty-cart error and
leaves the session unchanged: no order is minted and nothing is staged
in the pending slot. -/
theorem claim_C4_checkout_empty_cart (catalog : Catalog) (s : Session)
    (name email address payment rawHex : String)
    (hn : pyStrip name ≠ "") (he : pyStrip email ≠ "")
    (ha : pyStrip address ≠ "") (hp : pyStrip payment ≠ "")
    (hitems : (cartDetail catalog s.cart).1 = []) :
    checkoutSubmit catalog s name email address payment rawHex =
      (.emptyCartError, s) := by
  simp [checkoutSubmit, hn, he, ha, hp, hitems]

theorem claim_C4_checkout_empty_cart_witness :
    checkoutSubmit seedCatalog ⟨[("no-such-product", 2)], none⟩ "Amy"
        "amy@example.com" "1 Road" "card" "0c9a1b2d3e4f5a6b7c8d9e0f1a2b3c4d" =
      (.emptyCartError, ⟨[("no-such-product", 2)], none⟩) :=
  claim_C4_checkout_empty_cart seedCatalog ⟨[("no-such-product", 2)], none⟩
    "Amy" "amy@example.com" "1 Road" "card" "0c9a1b2d3e4f5a6b7c8d9e0f1a2b3c4d"
    (by decide) (by decide) (by decide) (by decide) (by decide)

/-- C5: reading the pending order consumes it exactly once: a staged
order is rendered and the slot cleared, so an immediately following read
redirects to the catalog view; and any state with nothing staged
redirects to the catalog view rather than erroring. -/
theorem claim_C5_pending_order_single_read (s : Session) :
    (∀ po, s.lastOrder = some po →
      readPendingOrder s =
        (.confirmation po.order_id po.email, { s with lastOrder := none })
      ∧ (readPendingOrder (readPendingOrder s).2).1 = .redirectToCatalog)
    ∧ (s.lastOrder = none → readPendingOrder s = (.redirectToCatalog, s)) := by
  obtain ⟨cart, lastOrder⟩ := s
  cases lastOrder with
  | none => simp [readPendingOrder]
  | some po => simp [readPendingOrder]

theorem claim_C5_pending_order_single_read_witness :
    readPendingOrder ⟨[], some ⟨"0C9A1B2D3E", "amy@example.com"⟩⟩ =
      (.confirmation "0C9A1B2D3E" "amy@example.com", ⟨[], none⟩)
    ∧ (readPendingOrder
        (readPendingOrder ⟨[], some ⟨"0C9A1B2D3E", "amy@example.com"⟩⟩).2).1 =
      .redirectToCatalog :=
  (claim_C5_pending_order_single_read
      ⟨[], some ⟨"0C9A1B2D3E", "amy@example.com"⟩⟩).1
    ⟨"0C9A1B2D3E", "amy@example.com"⟩ rfl

theorem findProduct_id_eq {catalog : Catalog} {pid : String} {p : Product}
    (h : findProduct catalog pid = some p) :
    p.id = pid ∧ findProduct catalog p.id = some p := by
  have h' : catalog.find? (fun x => x.id == pid) = some p := h
  have hb := List.find?_some h'
  have hid : p.id = pid := by simpa using hb
  exact ⟨hid, by rw [hid]; exact h⟩

theorem cartDetail_skip_entry (catalog : Catalog) (pid : String)
    (h : findProduct catalog pid = none) (q : Int) :
    ∀ pre post : Cart,
      cartDetail catalog (pre ++ (pid, q) :: post) = cartDetail catalog (pre ++ post) := by
  intro pre
  induction pre with
  | nil => intro post; simp [cartDetail, h]
  | cons e pre ih =>
    intro post
    obtain ⟨k, v⟩ := e
    show cartDetail catalog ((k, v) :: (pre ++ (pid, q) :: post)) =
      cartDetail catalog ((k, v) :: (pre ++ post))
    cases hk : findProduct catalog k with
    | none =>
      simpa only [cartDetail, hk] using ih post
    | some p =>
      simp only [cartDetail, hk, ih post]

theorem mem_cartDetail_found (catalog : Catalog) :
    ∀ (cart : Cart), ∀ item ∈ (cartDetail catalog cart).1,
      findProduct catalog item.id ≠ none
  | [] => by simp [cartDetail]
  | (pid, qty) :: rest => by
    intro item hitem
    cases h : findProduct catalog pid with
    | none =>
      rw [cartDetail, h] at hitem
      exact mem_cartDetail_found catalog rest item hitem
    | some p =>
      simp only [cartDetail, h, List.mem_cons] at hitem
      rcases hitem with rfl | hitem
      · show findProduct catalog p.id ≠ none
        rw [(findProduct_id_eq h).2]
        simp
      · exact mem_cartDetail_found catalog rest item hitem

theorem not_mem_cartDetail_ids {catalog : Catalog} {pid : String}
    (h : findProduct catalog pid = none) (cart : Cart) :
    pid ∉ (cartDetail catalog cart).1.map LineItem.id := by
  intro hmem
  simp only [List.mem_map] at hmem
  obtain ⟨item, hitem, rfl⟩ := hmem
  exact mem_cartDetail_found catalog cart item hitem h

/-- C9: a cart entry whose product id is absent from the catalog is
skipped without an error: removing it from the cart changes neither the
items nor the total of the snapshot, and no snapshot ever lists such an
id among its items. -/
theorem claim_C9_stale_ids_skipped (catalog : Catalog) (pid : String)
    (h : findProduct catalog pid = none) :
    (∀ (q : Int) (pre post : Cart),
      cartDetail catalog (pre ++ (pid, q) :: post) = cartDetail catalog (pre ++ post))
    ∧ ∀ cart : Cart, pid ∉ (cartDetail catalog cart).1.map LineItem.id :=
  ⟨fun q pre post => cartDetail_skip_entry catalog pid h q pre post,
   fun cart => not_mem_cartDetail_ids h cart⟩

theorem claim_C9_stale_ids_skipped_witness :
    cartDetail seedCatalog [("mask-cica", 2), ("ghost-product", 5)] =
      cartDetail seedCatalog [("mask-cica", 2)]
    ∧ "ghost-product" ∉
        (cartDetail seedCatalog
          [("mask-cica", 2), ("ghost-product", 5)]).1.map LineItem.id :=
  have h := claim_C9_stale_ids_skipped seedCatalog "ghost-product" (by decide)
  ⟨h.1 5 [("mask-cica", 2)] [], h.2 [("mask-cica", 2), ("ghost-product", 5)]⟩

theorem cartGet_cartSet_self (cart : Cart) (pid : String) (q : Int) :
    cartGet (cartSet cart pid q) pid = q := by
  induction cart with
  | nil => simp [cartGet, cartSet]
  | cons e rest ih =>
    obtain ⟨k, v⟩ := e
    by_cases hk : k = pid
    · subst hk
      simp [cartGet, cartSet]
    · simp only [cartSet, if_neg hk]
      rw [cartGet, List.find?_cons_of_neg _ (by simpa using hk)]
      exact ih

theorem self_mem_cartSet (cart : Cart) (pid : String) (q : Int) :
    (pid, q) ∈ cartSet cart pid q := by
  induction cart with
  | nil => simp [cartSet]
  | cons e rest ih =>
    obtain ⟨k, v⟩ := e
    by_cases hk : k = pid
    · subst hk; simp [cartSet]
    · simp only [cartSet, if_neg hk]
      exact List.mem_cons_of_mem _ ih

theorem mem_of_mem_cartSet {e : String × Int} :
    ∀ {cart : Cart} {pid : String} {q : Int},
      e ∈ cartSet cart pid q → e ∈ cart ∨ e = (pid, q) := by
  intro cart
  induction cart with
  | nil =>
    intro pid q h
    simp only [cartSet] at h
    rcases List.mem_cons.mp h with h | h
    · exact Or.inr h
    · exact absurd h (List.not_mem_nil _)
  | cons f rest ih =>
    intro pid q h
    obtain ⟨k, v⟩ := f
    by_cases hk : k = pid
    · subst hk
      simp only [cartSet, if_pos rfl] at h
      rcases List.mem_cons.mp h with h | h
      · exact Or.inr h
      · exact Or.inl (List.mem_cons_of_mem _ h)
    · simp only [cartSet, if_neg hk] at h
      rcases List.mem_cons.mp h with h | h
      · exact Or.inl (h ▸ List.mem_cons_self _ _)
      · rcases ih h with h' | h'
        · exact Or.inl (List.mem_cons_of_mem _ h')
        · exact Or.inr h'

theorem mem_cartSet_of_ne {e : String × Int} :
    ∀ {cart : Cart} {pid : String} {q : Int}, e ∈ cart → e.1 ≠ pid →
      e ∈ cartSet cart pid q := by
  intro cart
  induction cart with
  | nil => intro pid q h _; exact absurd h (List.not_mem_nil _)
  | cons f rest ih =>
    intro pid q h hne
    obtain ⟨k, v⟩ := f
    by_cases hk : k = pid
    · subst hk
      simp only [cartSet, if_pos rfl]
      rcases List.mem_cons.mp h with h | h
      · exact absurd (congrArg Prod.fst h) hne
      · exact List.mem_cons_of_mem _ h
    · simp only [cartSet, if_neg hk]
      rcases List.mem_cons.mp h with h | h
      · exact h ▸ List.mem_cons_self _ _
      · exact List.mem_cons_of_mem _ (ih h hne)

theorem cartInv_nil : cartInv [] := by
  intro e he
  exact absurd he (List.not_mem_nil _)

theorem cartInv_cartSet {cart : Cart} {pid : String} {q : Int}
    (hc : cartInv cart) (hq : 0 < q) : cartInv (cartSet cart pid q) := by
  intro e he
  rcases mem_of_mem_cartSet he with h | h
  · exact hc e h
  · subst h; exact hq

theorem cartGet_nonneg {cart : Cart} (hc : cartInv cart) (pid : String) :
    0 ≤ cartGet cart pid := by
  unfold cartGet
  cases hfind : cart.find? (fun e => e.1 == pid) with
  | none => simp
  | some e =>
    have := hc e (List.mem_of_find?_eq_some hfind)
    simpa using this.le

/-- C6: `add_to_cart` fails with `NotFound` when the product id does not
resolve in the catalog; otherwise the entry's new quantity is the
existing quantity (default 0) plus the requested quantity, so a sequence
of adds of the same resolvable id with positive quantities ends with the
sum of the requested quantities. -/
theorem claim_C6_add_merge :
    (∀ (catalog : Catalog) (cart : Cart) (pid : String) (qty : Int),
      findProduct catalog pid = none →
        addToCart catalog cart pid qty = .error .notFound)
    ∧ (∀ (catalog : Catalog) (cart : Cart) (pid : String) (qty : Int),
      findProduct catalog pid ≠ none →
        (addToCart catalog cart pid qty).map (fun c => cartGet c pid) =
          .ok (cartGet cart pid + qty))
    ∧ (∀ (catalog : Catalog) (cart : Cart) (pid : String) (qtys : List Int),
      findProduct catalog pid ≠ none → (∀ q ∈ qtys, 0 < q) →
        (addSeq catalog pid qtys cart).map (fun c => cartGet c pid) =
          .ok (cartGet cart pid + qtys.sum)) := by
  refine ⟨?_, ?_, ?_⟩
  · intro catalog cart pid qty h
    simp [addToCart, h]
  · intro catalog cart pid qty h
    cases hfp : findProduct catalog pid with
    | none => exact absurd hfp h
    | some p => simp [addToCart, hfp, Except.map, cartGet_cartSet_self]
  · intro catalog cart pid qtys h _hpos
    cases hfp : findProduct catalog pid with
    | none => exact absurd hfp h
    | some p =>
      clear h _hpos
      induction qtys generalizing cart with
      | nil => simp [addSeq, Except.map]
      | cons q qs ih =>
        have step : addSeq catalog pid (q :: qs) cart =
            addSeq catalog pid qs (cartSet cart pid (cartGet cart pid + q)) := by
          simp [addSeq, addToCart, hfp]
        rw [step, ih (cartSet cart pid (cartGet cart pid + q)),
          cartGet_cartSet_self, List.sum_cons, add_assoc]

theorem claim_C6_add_merge_witness :
    addToCart seedCatalog [] "no-such-product" 1 = .error .notFound
    ∧ (addToCart seedCatalog [("mask-cica", 2)] "mask-cica" 3).map
        (fun c => cartGet c "mask-cica") =
      .ok (cartGet [("mask-cica", 2)] "mask-cica" + 3)
    ∧ (addSeq seedCatalog "mask-cica" [2, 3, 4] []).map
        (fun c => cartGet c "mask-cica") =
      .ok (cartGet ([] : Cart) "mask-cica" + ([2, 3, 4] : List Int).sum) :=
  ⟨claim_C6_add_merge.1 seedCatalog [] "no-such-product" 1 (by decide),
   claim_C6_add_merge.2.1 seedCatalog [("mask-cica", 2)] "mask-cica" 3 (by decide),
   claim_C6_add_merge.2.2 seedCatalog [] "mask-cica" [2, 3, 4] (by decide)
     (by decide)⟩

theorem stripQtyKey_eq_some {key pid : String} (h : stripQtyKey key = some pid) :
    key = mkQtyKey pid := by
  obtain ⟨d⟩ := key
  unfold stripQtyKey at h
  split at h
  · rename_i hc
    injection h with h
    subst h
    unfold mkQtyKey
    have hc' : d.take 4 = ['q', 't', 'y', '_'] := hc
    show String.mk d = String.mk ('q' :: 't' :: 'y' :: '_' :: d.drop 4)
    congr 1
    conv_lhs => rw [← List.take_append_drop 4 d]
    rw [hc']
    rfl
  · exact absurd h (by simp)

theorem stripQtyKey_mkQtyKey (pid : String) : stripQtyKey (mkQtyKey pid) = some pid := by
  obtain ⟨d⟩ := pid
  rfl

theorem buildCart_sound :
    ∀ (form : List (String × String)) (acc c : Cart),
      buildCart form acc = some c →
      ∀ pid q, (pid, q) ∈ c →
        (pid, q) ∈ acc ∨
          (0 < q ∧ ∃ v n, (mkQtyKey pid, v) ∈ form ∧ formQty v = some n ∧
            q = max 0 n) := by
  intro form
  induction form with
  | nil =>
    intro acc c h pid q hmem
    simp only [buildCart] at h
    injection h with h
    subst h
    exact Or.inl hmem
  | cons kv rest ih =>
    intro acc c h pid q hmem
    obtain ⟨key, value⟩ := kv
    cases hs : stripQtyKey key with
    | none =>
      simp only [buildCart, hs] at h
      rcases ih acc c h pid q hmem with h' | ⟨hq, v, n, hv, hfq, hmax⟩
      · exact Or.inl h'
      · exact Or.inr ⟨hq, v, n, List.mem_cons_of_mem _ hv, hfq, hmax⟩
    | some pid' =>
      simp only [buildCart, hs] at h
      cases hfv : formQty value with
      | none => rw [hfv] at h; dsimp only at h; cases h
      | some n =>
        rw [hfv] at h
        dsimp only at h
        by_cases hq : 0 < max 0 n
        · rw [if_pos hq] at h
          rcases ih _ c h pid q hmem with h' | ⟨hq', v', n', hv', hfq', hmax'⟩
          · rcases mem_of_mem_cartSet h' with h'' | h''
            · exact Or.inl h''
            · injection h'' with h1 h2
              subst h1
              refine Or.inr ⟨h2 ▸ hq, value, n, ?_, hfv, h2⟩
              rw [stripQtyKey_eq_some hs]
              exact List.mem_cons_self _ _
          · exact Or.inr ⟨hq', v', n', List.mem_cons_of_mem _ hv', hfq', hmax'⟩
        · rw [if_neg hq] at h
          rcases ih acc c h pid q hmem with h' | ⟨hq', v', n', hv', hfq', hmax'⟩
          · exact Or.inl h'
          · exact Or.inr ⟨hq', v', n', List.mem_cons_of_mem _ hv', hfq', hmax'⟩

theorem buildCart_preserve :
    ∀ (form : List (String × String)) (acc c : Cart) (pid : String) (q : Int),
      buildCart form acc = some c → (pid, q) ∈ acc →
      (∀ v, (mkQtyKey pid, v) ∉ form) → (pid, q) ∈ c := by
  intro form
  induction form with
  | nil =>
    intro acc c pid q h hacc _
    simp only [buildCart] at h
    injection h with h
    subst h
    exact hacc
  | cons kv rest ih =>
    intro acc c pid q h hacc hnot
    obtain ⟨key, value⟩ := kv
    have hnotRest : ∀ v, (mkQtyKey pid, v) ∉ rest := fun v hv =>
      hnot v (List.mem_cons_of_mem _ hv)
    cases hs : stripQtyKey key with
    | none =>
      simp only [buildCart, hs] at h
      exact ih acc c pid q h hacc hnotRest
    | some pid' =>
      simp only [buildCart, hs] at h
      cases hfv : formQty value with
      | none => rw [hfv] at h; dsimp only at h; cases h
      | some n =>
        rw [hfv] at h
        dsimp only at h
        by_cases hq : 0 < max 0 n
        · rw [if_pos hq] at h
          have hne : pid ≠ pid' := by
            rintro rfl
            have hkey : key = mkQtyKey pid := stripQtyKey_eq_some hs
            subst hkey
            exact hnot value (List.mem_cons_self _ _)
          exact ih _ c pid q h (mem_cartSet_of_ne hacc hne) hnotRest
        · rw [if_neg hq] at h
          exact ih acc c pid q h hacc hnotRest

theorem buildCart_complete :
    ∀ (form : List (String × String)) (acc c : Cart) (pid v : String) (n : Int),
      buildCart form acc = some c → (form.map Prod.fst).Nodup →
      (mkQtyKey pid, v) ∈ form → formQty v = some n → 0 < n → (pid, n) ∈ c := by
  intro form
  induction form with
  | nil =>
    intro acc c pid v n _ _ hmem _ _
    exact absurd hmem (List.not_mem_nil _)
  | cons kv rest ih =>
    intro acc c pid v n h hnd hmem hfq hn
    obtain ⟨key, value⟩ := kv
    rw [List.map_cons] at hnd
    rcases List.mem_cons.mp hmem with heq | hmem'
    · injection heq with hkey hval
      subst hval
      have hs : stripQtyKey key = some pid := by
        rw [← hkey]; exact stripQtyKey_mkQtyKey pid
      simp only [buildCart, hs] at h
      rw [hfq] at h
      dsimp only at h
      have hmax : max 0 n = n := max_eq_right hn.le
      rw [hmax, if_pos hn] at h
      refine buildCart_preserve rest _ c pid n h (self_mem_cartSet acc pid n) ?_
      intro v' hv'
      have hin : mkQtyKey pid ∈ rest.map Prod.fst :=
        List.mem_map_of_mem Prod.fst hv'
      exact (List.nodup_cons.mp hnd).1 (hkey ▸ hin)
    · cases hs : stripQtyKey key with
      | none =>
        simp only [buildCart, hs] at h
        exact ih acc c pid v n h (List.nodup_cons.mp hnd).2 hmem' hfq hn
      | some pid' =>
        simp only [buildCart, hs] at h
        cases hfv : formQty value with
        | none => rw [hfv] at h; dsimp only at h; cases h
        | some m =>
          rw [hfv] at h
          dsimp only at h
          by_cases hq : 0 < max 0 m
          · rw [if_pos hq] at h
            exact ih _ c pid v n h (List.nodup_cons.mp hnd).2 hmem' hfq hn
          · rw [if_neg hq] at h
            exact ih acc c pid v n h (List.nodup_cons.mp hnd).2 hmem' hfq hn

/-- C7: `update_cart` parses each `qty_<pid>` form value, clamps negative
quantities to 0, drops entries whose resulting quantity is 0, and
replaces the entire cart with the surviving entries: every stored entry
has a positive quantity equal to the clamped parse of its posted value,
a product id with no posted `qty_` field never survives into the new
cart, and (for a form with distinct keys, as a browser form dict has)
every posted value parsing to a positive quantity is stored. -/
theorem claim_C7_replace_all (form : List (String × String)) (c : Cart)
    (h : updateCart form = some c) :
    (∀ pid q, (pid, q) ∈ c →
      0 < q ∧ ∃ v n, (mkQtyKey pid, v) ∈ form ∧ formQty v = some n ∧ q = max 0 n)
    ∧ (∀ pid, (∀ v, (mkQtyKey pid, v) ∉ form) → ∀ q, (pid, q) ∉ c)
    ∧ ((form.map Prod.fst).Nodup →
      ∀ pid v n, (mkQtyKey pid, v) ∈ form → formQty v = some n → 0 < n →
        (pid, n) ∈ c) := by
  refine ⟨?_, ?_, ?_⟩
  · intro pid q hmem
    rcases buildCart_sound form [] c h pid q hmem with h' | h'
    · exact absurd h' (List.not_mem_nil _)
    · exact h'
  · intro pid hnot q hmem
    rcases buildCart_sound form [] c h pid q hmem with h' | ⟨_, v, n, hv, _, _⟩
    · exact absurd h' (List.not_mem_nil _)
    · exact hnot v hv
  · intro hnd pid v n hmem hfq hn
    exact buildCart_complete form [] c pid v n h hnd hmem hfq hn

theorem claim_C7_replace_all_witness :
    updateCart [("qty_mask-cica", "0"), ("qty_hand-cream-coconut", "3")] =
      some [("hand-cream-coconut", 3)]
    ∧ ("hand-cream-coconut", (3 : Int)) ∈ ([("hand-cream-coconut", 3)] : Cart)
    ∧ ∀ q, ("mask-heartleaf", q) ∉ ([("hand-cream-coconut", 3)] : Cart) :=
  have h := claim_C7_replace_all
    [("qty_mask-cica", "0"), ("qty_hand-cream-coconut", "3")]
    [("hand-cream-coconut", 3)] (by decide)
  ⟨by decide,
   h.2.2 (by decide) "hand-cream-coconut" "3" 3 (by decide) (by decide) (by decide),
   fun q => h.2.1 "mask-heartleaf"
     (fun v hv => by
       rcases List.mem_cons.mp hv with heq | hv'
       · have hk : mkQtyKey "mask-heartleaf" = "qty_mask-cica" :=
           congrArg Prod.fst heq
         exact absurd hk (by decide)
       · rcases List.mem_cons.mp hv' with heq | hv''
         · have hk : mkQtyKey "mask-heartleaf" = "qty_hand-cream-coconut" :=
             congrArg Prod.fst heq
           exact absurd hk (by decide)
         · exact absurd hv'' (List.not_mem_nil _)) q⟩

/-- C8 as stated is false: `add_to_cart` of a resolvable product with a
requested quantity of 0 stores the entry with quantity 0 in the cart,
violating the no-nonpositive-entries invariant even starting from the
empty cart. -/
theorem claim_C8_counterexample :
    addToCart seedCatalog [] "mask-cica" 0 = .ok [("mask-cica", 0)]
    ∧ ¬ cartInv [("mask-cica", 0)] := by
  constructor
  · rfl
  · decide

theorem buildCart_inv :
    ∀ (form : List (String × String)) (acc c : Cart),
      cartInv acc → buildCart form acc = some c → cartInv c := by
  intro form
  induction form with
  | nil =>
    intro acc c hacc h
    simp only [buildCart] at h
    injection h with h
    subst h
    exact hacc
  | cons kv rest ih =>
    intro acc c hacc h
    obtain ⟨key, value⟩ := kv
    cases hs : stripQtyKey key with
    | none =>
      simp only [buildCart, hs] at h
      exact ih acc c hacc h
    | some pid =>
      simp only [buildCart, hs] at h
      cases hfv : formQty value with
      | none => rw [hfv] at h; dsimp only at h; cases h
      | some n =>
        rw [hfv] at h
        dsimp only at h
        by_cases hq : 0 < max 0 n
        · rw [if_pos hq] at h
          exact ih _ c (cartInv_cartSet hacc hq) h
        · rw [if_neg hq] at h
          exact ih acc c hacc h

/-- C8 amended: the no-nonpositive-entries invariant is preserved by
`update_cart`, `remove_item` and `clear` (the empty cart satisfies it)
unconditionally, and by `add_to_cart` when the requested quantity is
positive; `add_to_cart` with a zero or negative quantity can break it
(see the counterexample), the quirk §9 of the spec records. -/
theorem claim_C8_invariant_preserved_amended :
    cartInv []
    ∧ (∀ (catalog : Catalog) (cart cart' : Cart) (pid : String) (qty : Int),
        0 < qty → cartInv cart → addToCart catalog cart pid qty = .ok cart' →
        cartInv cart')
    ∧ (∀ (form : List (String × String)) (cart' : Cart),
        updateCart form = some cart' → cartInv cart')
    ∧ (∀ (cart : Cart) (pid : String), cartInv cart → cartInv (removeItem cart pid)) := by
  refine ⟨cartInv_nil, ?_, ?_, ?_⟩
  · intro catalog cart cart' pid qty hq hc hok
    cases hfp : findProduct catalog pid with
    | none =>
      simp only [addToCart, hfp] at hok
      exact Except.noConfusion hok
    | some p =>
      simp only [addToCart, hfp] at hok
      injection hok with hok
      subst hok
      have h0 := cartGet_nonneg hc pid
      exact cartInv_cartSet hc (by omega)
  · intro form cart' h
    exact buildCart_inv form [] cart' cartInv_nil h
  · intro cart pid hc e he
    exact hc e ((List.eraseP_sublist cart).subset he)

theorem claim_C8_invariant_preserved_amended_witness :
    cartInv [("mask-cica", 3)]
    ∧ cartInv [("hand-cream-coconut", 3)]
    ∧ cartInv (removeItem [("mask-cica", 3)] "mask-cica") :=
  ⟨claim_C8_invariant_preserved_amended.2.1 seedCatalog [] [("mask-cica", 3)]
      "mask-cica" 3 (by decide) (by decide) (by rfl),
   claim_C8_invariant_preserved_amended.2.2.1 [("qty_hand-cream-coconut", "3")]
      [("hand-cream-coconut", 3)] (by decide),
   claim_C8_invariant_preserved_amended.2.2.2 [("mask-cica", 3)] "mask-cica"
      (by decide)⟩

/-- C10 (implicit): `update_cart`, unlike `add_to_cart`, never consults
the catalog: a posted `qty_<pid>` whose value parses to a positive
quantity is stored even when `pid` resolves to no product, while
`add_to_cart` of the same id always fails with `NotFound`; the unknown id
is only dropped later, silently, when the cart is priced. -/
theorem claim_C10_update_skips_catalog (catalog : Catalog)
    (form : List (String × String)) (c : Cart) (pid v : String) (n : Int)
    (hbuild : updateCart form = some c)
    (hnd : (form.map Prod.fst).Nodup)
    (hmem : (mkQtyKey pid, v) ∈ form)
    (hfq : formQty v = some n) (hn : 0 < n)
    (hmiss : findProduct catalog pid = none) :
    (pid, n) ∈ c
    ∧ pid ∉ (cartDetail catalog c).1.map LineItem.id
    ∧ ∀ (cart : Cart) (qty : Int),
        addToCart catalog cart pid qty = .error .notFound := by
  refine ⟨buildCart_complete form [] c pid v n hbuild hnd hmem hfq hn, ?_, ?_⟩
  · exact not_mem_cartDetail_ids hmiss c
  · intro cart qty
    simp [addToCart, hmiss]

theorem claim_C10_update_skips_catalog_witness :
    ("ghost-product", (2 : Int)) ∈ ([("ghost-product", 2)] : Cart)
    ∧ "ghost-product" ∉
        (cartDetail seedCatalog [("ghost-product", 2)]).1.map LineItem.id
    ∧ addToCart seedCatalog [] "ghost-product" 2 = .error .notFound :=
  have h := claim_C10_update_skips_catalog seedCatalog
    [("qty_ghost-product", "2")] [("ghost-product", 2)] "ghost-product" "2" 2
    (by decide) (by decide) (by decide) (by decide) (by decide) (by decide)
  ⟨h.1, h.2.1, h.2.2 [] 2⟩

end Shop
